import Mathlib

/-!
Shallow embedding of `modelzoo/common/pytorch/layers/EmbeddingLayer.py`.

Real-valued tensor entries are modelled by `ℝ`; the float inputs
`min_timescale`/`max_timescale` are modelled by `ℚ` (every Python float
literal is a rational), cast into `ℝ` where the source computes with them.
Operations that raise in Python (float division by zero, `math.log` of a
nonpositive argument, indexing a `None` attribute, a failed in-place
broadcast) are modelled by `Option`/`Except` results, `none`/`error`
standing for the raised exception.
-/

namespace ModelZoo

/--
`EmbeddingLayer.create_fix_pos_embedding(seq_len, embed_len, min_timescale,
max_timescale)` (source lines 126-154).

The three `none` guards model the exceptions Python raises while computing
`log_timescale_increment`:
`float(max_timescale) / float(min_timescale)` raises `ZeroDivisionError` when
`min_timescale == 0`; `math.log` raises `ValueError` on a nonpositive
argument; the division by `float(num_timescales) - 1` raises
`ZeroDivisionError` when `num_timescales == 1`.

`torch.reshape(signal, (seq_len, 2, num_timescales))`,
`torch.transpose(signal, 1, 2)` and the flattening reshape leave axis 0
untouched, so they are modelled row by row; `reshape` regroups each
(row-major, length `2*num_timescales`) row into a `2 × num_timescales`
block, `transpose(1, 2)` maps entry `[j][i]` to `[i][j]`, the final
reshape flattens each block row-major.

`torch.nn.functional.pad(signal, (0, 0, 0, embed_len % 2))`: the first pair
`(0, 0)` pads the LAST axis, the second pair `(0, embed_len % 2)` pads axis
0, so an odd `embed_len` appends one zero ROW of width `2*num_timescales`
(it does not append a zero column).
-/
noncomputable def create_fix_pos_embedding
    (seq_len embed_len : ℕ) (min_timescale max_timescale : ℚ) :
    Option (List (List ℝ)) :=
  let num_timescales := embed_len / 2
  if min_timescale = 0 then none
  else if max_timescale / min_timescale ≤ 0 then none
  else if (num_timescales : ℚ) - 1 = 0 then none
  else
    let log_timescale_increment : ℝ :=
      Real.log ((max_timescale : ℝ) / (min_timescale : ℝ)) /
        ((num_timescales : ℝ) - 1)
    let inv_timescales : List ℝ :=
      (List.range num_timescales).map
        (fun (i : ℕ) => (min_timescale : ℝ) * Real.exp ((i : ℝ) * -log_timescale_increment))
    let scaled_time : List (List ℝ) :=
      (List.range seq_len).map (fun (p : ℕ) => inv_timescales.map (fun t => (p : ℝ) * t))
    let signal : List (List ℝ) :=
      scaled_time.map (fun row => row.map Real.sin ++ row.map Real.cos)
    let signal2 : List (List (List ℝ)) :=
      signal.map (fun row =>
        (List.range 2).map (fun j =>
          (List.range num_timescales).map (fun i => row.getD (j * num_timescales + i) 0)))
    let signal3 : List (List (List ℝ)) :=
      signal2.map (fun mat =>
        (List.range num_timescales).map (fun i =>
          (List.range 2).map (fun j => (mat.getD j []).getD i 0)))
    let signal4 : List (List ℝ) := signal3.map (fun mat => mat.flatten)
    some (signal4 ++
      List.replicate (embed_len % 2) (List.replicate (2 * num_timescales) 0))

/-- Modelled from the spec: `create_initializer` (module
`modelzoo.common.pytorch.model_utils.create_initializer`, not under `src/`)
resolves an initializer spec to "a function `init(tensor) -> void` that
fills the tensor in place with a statistical distribution"; the function it
returns is modelled as the entry-wise fill `(row, col) ↦ value` that it
writes into the table. -/
def Initializer : Type := ℕ → ℕ → ℝ

/-- Fill an `n × m` weight table in place: every entry is overwritten with
the initializer's value for its position. -/
def applyInit (f : Initializer) (n m : ℕ) : List (List ℝ) :=
  (List.range n).map (fun (r : ℕ) => (List.range m).map (fun (c : ℕ) => f r c))

/-- `torch.nn.Embedding(num_embeddings, embedding_dim, padding_idx)`: the
weight table together with the remembered `padding_idx`. The
`padding_idx < num_embeddings` assertion torch makes is modelled at the
call site (`initLayer`). The initial random weight is modelled as zeros:
`_reset_parameters` overwrites every entry before it can be observed. -/
structure Embedding where
  num_embeddings : ℕ
  embedding_dim : ℕ
  padding_idx : Option ℕ
  weight : List (List ℝ)

/-- Build a fresh `nn.Embedding`. -/
def nnEmbedding (num dim : ℕ) (padding_idx : Option ℕ) : Embedding :=
  ⟨num, dim, padding_idx, List.replicate num (List.replicate dim 0)⟩

/-- The `position_embeddings` attribute when it is not `None`: the learned
`nn.Embedding`, or the constant matrix from `create_fix_pos_embedding`. -/
inductive PosEmb where
  | learned (e : Embedding)
  | fixed (table : List (List ℝ))

/-- The exceptions `__init__` (including the `_reset_parameters` call it
makes) can raise. -/
inductive InitError where
  /-- `ValueError("max_position_embeddings should be specified.")` -/
  | missingMaxPosition
  /-- `ValueError(f"Unknown position embedding type: ...")` -/
  | unknownPositionType
  /-- The `padding_idx < num_embeddings` assertion of `nn.Embedding`. -/
  | badPaddingIdx
  /-- `ZeroDivisionError`/`ValueError` raised inside
  `create_fix_pos_embedding`. -/
  | fixEmbeddingError
  /-- `AttributeError`: `_reset_parameters` takes `.weight` of a
  `position_embeddings` that is not an `nn.Embedding`; unreachable from
  `__init__`. -/
  | positionTableMismatch
  /-- `AttributeError`: `_reset_parameters` takes `.weight` of
  `self.segment_embeddings` when that attribute is `None`. -/
  | noneSegmentTable
deriving DecidableEq

/-- Which table attributes had been assigned when `__init__` raised: Python
leaves the attributes set before the exception on the partially built
object (`rotary`/none assign `position_embeddings = None`, which is not a
built table). -/
structure Built where
  word : Bool
  pos : Bool
  seg : Bool
deriving DecidableEq

/-- The fully constructed layer: the attributes of `EmbeddingLayer` that
`forward` and `_reset_parameters` read. -/
structure EmbeddingLayer where
  pad_token_id : Option ℕ
  position_embedding_type : Option String
  word_embeddings : Embedding
  position_embeddings : Option PosEmb
  segment_embeddings : Option Embedding

/-- Python truthiness of an optional integer (`if self.pad_token_id:`,
`if num_segments:`): `None` and `0` are both falsy. -/
def truthy : Option ℕ → Bool
  | none => false
  | some n => n != 0

/-- The `padding_idx` range assertion of `nn.Embedding` (token ids are
nonnegative, so only the upper bound is modelled). -/
def padIdxOk : Option ℕ → ℕ → Bool
  | none, _ => true
  | some p, vocab => p < vocab

/-- `weight.data[idx].zero_()` where `idx` is the table's `padding_idx`:
for `some i` it zeroes row `i`; for `none` the Python expression is
`tensor[None]`, which is `unsqueeze(0)` — a view of the WHOLE tensor — so
`zero_()` clears every entry of the table. -/
def zeroAtPaddingIdx (idx : Option ℕ) (w : List (List ℝ)) : List (List ℝ) :=
  match idx with
  | some i => w.mapIdx (fun r row => if r = i then row.map (fun _ => (0 : ℝ)) else row)
  | none => w.map (fun row => row.map (fun _ => (0 : ℝ)))

/-- The constructor arguments of `EmbeddingLayer.__init__` (source lines
55-70); the initializer specs are modelled by the fill functions that the
InitializerResolver returns for them, and the float timescales by the
rationals they denote. -/
structure Config where
  vocab_size : ℕ
  embedding_size : ℕ
  pad_token_id : Option ℕ
  segment_embedding_size : Option ℕ
  embeddings_initializer : Initializer
  max_position_embeddings : Option ℕ
  position_embedding_type : Option String
  min_timescale : ℚ
  max_timescale : ℚ
  position_embeddings_initializer : Initializer
  num_segments : Option ℕ
  segment_embeddings_initializer : Initializer

/-- `_reset_parameters` (source lines 156-181): re-initialize the word
table, the learned positional table and the segment table, then, when
`pad_token_id` is truthy, zero each table at its `padding_idx` — the word
table at `pad_token_id`, the positional and segment tables at their
`padding_idx = None`, i.e. entirely (`tensor[None]` is a whole-tensor
view); the nested `if self.pad_token_id:` dereferences
`self.segment_embeddings.weight` even when that attribute is `None`. -/
def reset_parameters (cfg : Config) (word : Embedding) (pos : Option PosEmb)
    (seg : Option Embedding) :
    Except InitError (Embedding × Option PosEmb × Option Embedding) :=
  let word := { word with
    weight := applyInit cfg.embeddings_initializer word.num_embeddings word.embedding_dim }
  let step2 : Except InitError (Option PosEmb) :=
    if cfg.position_embedding_type = some "learned" then
      match pos with
      | some (.learned e) =>
          .ok (some (.learned { e with
            weight := applyInit cfg.position_embeddings_initializer
              e.num_embeddings e.embedding_dim }))
      | _ => .error .positionTableMismatch
    else .ok pos
  match step2 with
  | .error e => .error e
  | .ok pos =>
    let seg : Option Embedding :=
      match seg with
      | some e => some { e with
          weight := applyInit cfg.segment_embeddings_initializer
            e.num_embeddings e.embedding_dim }
      | none => none
    if truthy cfg.pad_token_id then
      let word := { word with
        weight := zeroAtPaddingIdx word.padding_idx word.weight }
      let step4 : Except InitError (Option PosEmb) :=
        if cfg.position_embedding_type = some "learned" then
          match pos with
          | some (.learned e) =>
              .ok (some (.learned { e with
                weight := zeroAtPaddingIdx e.padding_idx e.weight }))
          | _ => .error .positionTableMismatch
        else .ok pos
      match step4 with
      | .error e => .error e
      | .ok pos =>
        if truthy cfg.pad_token_id then
          match seg with
          | none => .error .noneSegmentTable
          | some e =>
              .ok (word, pos, some { e with
                weight := zeroAtPaddingIdx e.padding_idx e.weight })
        else .ok (word, pos, seg)
    else .ok (word, pos, seg)

/-- The `position_embeddings` construction of `__init__` (source lines
92-114): requires `max_position_embeddings` for EVERY non-`None` type
(`"rotary"` included), then dispatches on the type, raising for an unknown
one. The `Built` flags in the error note that the word table already
exists at each of these raise points. -/
noncomputable def buildPosition (cfg : Config) :
    Except (InitError × Built) (Option PosEmb) :=
  match cfg.position_embedding_type with
  | some t =>
    match cfg.max_position_embeddings with
    | none => .error (.missingMaxPosition, ⟨true, false, false⟩)
    | some max_position_embeddings =>
      if t = "learned" then
        .ok (some (.learned (nnEmbedding max_position_embeddings cfg.embedding_size none)))
      else if t = "fixed" then
        match create_fix_pos_embedding max_position_embeddings cfg.embedding_size
            cfg.min_timescale cfg.max_timescale with
        | none => .error (.fixEmbeddingError, ⟨true, false, false⟩)
        | some table => .ok (some (.fixed table))
      else if t = "rotary" then .ok none
      else .error (.unknownPositionType, ⟨true, false, false⟩)
  | none => .ok none

/-- The `segment_embeddings` construction of `__init__` (source lines
73-74 and 116-121): `segment_embedding_size` defaults to `embedding_size`;
`if num_segments:` is Python truthiness, so `None` and `0` both skip the
table. -/
noncomputable def buildSegment (cfg : Config) : Option Embedding :=
  if truthy cfg.num_segments then
    some (nnEmbedding (cfg.num_segments.getD 0)
      (cfg.segment_embedding_size.getD cfg.embedding_size) none)
  else none

/-- `EmbeddingLayer.__init__` (source lines 55-124): build the word table
(BEFORE any validation of `max_position_embeddings` or of the type), then
the positional source, then the segment table, then run
`_reset_parameters`. On an exception the error carries which tables had
been built when it was raised. -/
noncomputable def initLayer (cfg : Config) : Except (InitError × Built) EmbeddingLayer :=
  if padIdxOk cfg.pad_token_id cfg.vocab_size then
    match buildPosition cfg with
    | .error e => .error e
    | .ok pos =>
      match reset_parameters cfg
          (nnEmbedding cfg.vocab_size cfg.embedding_size cfg.pad_token_id) pos
          (buildSegment cfg) with
      | .error e => .error (e, ⟨true, pos.isSome, truthy cfg.num_segments⟩)
      | .ok (w, p, s) => .ok ⟨cfg.pad_token_id, cfg.position_embedding_type, w, p, s⟩
  else .error (.badPaddingIdx, ⟨false, false, false⟩)

/-- `Except.isOk` for the construction result. -/
def exceptIsOk {ε α : Type} : Except ε α → Bool
  | .ok _ => true
  | .error _ => false

/-- Configuration with `pad_token_id = 0` (a valid row index of the
2-row vocabulary) and an all-ones word initializer. -/
noncomputable def cfgPadZero : Config :=
  { vocab_size := 2, embedding_size := 2, pad_token_id := some 0,
    segment_embedding_size := none,
    embeddings_initializer := fun _ _ => 1,
    max_position_embeddings := none, position_embedding_type := none,
    min_timescale := 1, max_timescale := 10000,
    position_embeddings_initializer := fun _ _ => 1,
    num_segments := none, segment_embeddings_initializer := fun _ _ => 1 }

/-- Configuration with `position_embedding_type = "rotary"` and
`max_position_embeddings` unset. -/
noncomputable def cfgRotaryNoMax : Config :=
  { vocab_size := 2, embedding_size := 2, pad_token_id := none,
    segment_embedding_size := none,
    embeddings_initializer := fun _ _ => 1,
    max_position_embeddings := none, position_embedding_type := some "rotary",
    min_timescale := 1, max_timescale := 10000,
    position_embeddings_initializer := fun _ _ => 1,
    num_segments := none, segment_embeddings_initializer := fun _ _ => 1 }

/-- Configuration with `position_embedding_type = "learned"` and
`max_position_embeddings` unset. -/
noncomputable def cfgLearnedNoMax : Config :=
  { vocab_size := 2, embedding_size := 2, pad_token_id := none,
    segment_embedding_size := none,
    embeddings_initializer := fun _ _ => 1,
    max_position_embeddings := none, position_embedding_type := some "learned",
    min_timescale := 1, max_timescale := 10000,
    position_embeddings_initializer := fun _ _ => 1,
    num_segments := none, segment_embeddings_initializer := fun _ _ => 1 }

/-- Configuration with a truthy `pad_token_id = 1`, learned positions and a
segment table, with all-ones initializers. -/
noncomputable def cfgLearnedPad : Config :=
  { vocab_size := 2, embedding_size := 1, pad_token_id := some 1,
    segment_embedding_size := none,
    embeddings_initializer := fun _ _ => 1,
    max_position_embeddings := some 1, position_embedding_type := some "learned",
    min_timescale := 1, max_timescale := 10000,
    position_embeddings_initializer := fun _ _ => 1,
    num_segments := some 1, segment_embeddings_initializer := fun _ _ => 1 }

/-- The layer `cfgLearnedPad` constructs: pad row of the word table zeroed,
the learned positional table and the segment table zeroed entirely. -/
noncomputable def layerLearnedPad : EmbeddingLayer :=
  { pad_token_id := some 1, position_embedding_type := some "learned",
    word_embeddings := ⟨2, 1, some 1, [[1], [0]]⟩,
    position_embeddings := some (.learned ⟨1, 1, none, [[0]]⟩),
    segment_embeddings := some ⟨1, 1, none, [[0]]⟩ }

/-- Configuration with a truthy `pad_token_id = 1` and `num_segments`
unset. -/
noncomputable def cfgPadNoSegments : Config :=
  { vocab_size := 2, embedding_size := 2, pad_token_id := some 1,
    segment_embedding_size := none,
    embeddings_initializer := fun _ _ => 1,
    max_position_embeddings := none, position_embedding_type := none,
    min_timescale := 1, max_timescale := 10000,
    position_embeddings_initializer := fun _ _ => 1,
    num_segments := none, segment_embeddings_initializer := fun _ _ => 1 }

/-- A real tensor: its shape and its row-major flat data. -/
structure Tensor where
  shape : List ℕ
  data : List ℝ

/-- An integer tensor (token / position / segment ids). -/
structure IntTensor where
  shape : List ℕ
  data : List ℤ

/-- One dimension of the torch broadcast rule: sizes must be equal or one
of them 1, the result being the larger. -/
def bdim (a b : ℕ) : Option ℕ :=
  if a = b then some a
  else if a = 1 then some b
  else if b = 1 then some a
  else none

/-- Broadcast two reversed shapes (least-significant axis first); a missing
leading axis behaves as size 1. -/
def broadcastShapeRev : List ℕ → List ℕ → Option (List ℕ)
  | [], ys => some ys
  | xs, [] => some xs
  | x :: xs, y :: ys =>
    match bdim x y, broadcastShapeRev xs ys with
    | some d, some rest => some (d :: rest)
    | _, _ => none

/-- torch broadcast of two shapes, right-aligned. -/
def broadcastShape (xs ys : List ℕ) : Option (List ℕ) :=
  (broadcastShapeRev xs.reverse ys.reverse).map List.reverse

/-- Row-major multi-index of flat position `k` in `shape`. -/
def multiIndex : List ℕ → ℕ → List ℕ
  | [], _ => []
  | _ :: ds, k => (k / ds.prod) :: multiIndex ds (k % ds.prod)

/-- Row-major flat position of multi-index `idx` in `shape`. -/
def flatIndex : List ℕ → List ℕ → ℕ
  | _ :: ds, i :: is => i * ds.prod + flatIndex ds is
  | _, _ => 0

/-- The operand position a broadcast result position reads: drop the extra
leading axes, clamp axes of size 1 to index 0. -/
def broadcastSource (srcShape idx : List ℕ) : List ℕ :=
  List.zipWith (fun d i => if d = 1 then 0 else i) srcShape
    (idx.drop (idx.length - srcShape.length))

/-- `a += b` with torch semantics: an in-place add cannot grow `a`, so the
broadcast of the two shapes must be `a`'s own shape; otherwise torch
raises, modelled by `none`. -/
noncomputable def inplaceAdd (a b : Tensor) : Option Tensor :=
  if broadcastShape a.shape b.shape = some a.shape then
    some { shape := a.shape,
           data := (List.range a.shape.prod).map (fun (k : ℕ) =>
             a.data.getD k 0 + b.data.getD
               (flatIndex b.shape (broadcastSource b.shape (multiIndex a.shape k))) 0) }
  else none

/-- `nn.Embedding.__call__` / `F.embedding`: each id selects a row of the
weight table, appending `embedding_dim` to the shape; an out-of-range id
raises, modelled by `none`. -/
noncomputable def embeddingLookup (e : Embedding) (ids : IntTensor) : Option Tensor :=
  if ids.data.all (fun i => decide (0 ≤ i) && decide (i < (e.num_embeddings : ℤ))) then
    some { shape := ids.shape ++ [e.embedding_dim],
           data := ids.data.flatMap (fun i => e.weight.getD i.toNat []) }
  else none

/-- The positional contribution of `forward` (source lines 198-208):
nothing when `position_embeddings` is `None`; for `"learned"` an offset
`arange` expanded over `input_ids.shape[0]` rows is looked up and added in
place; for `"fixed"` the constant table (a tensor; `.to(...)` is a device
move, the identity here) is added in place. The `none` fall-through models
the `NameError` of the dangling `position_embeddings` local when the type
is neither of the two (unreachable from `__init__`), and the `.weight`
mismatch cases likewise cannot arise from `__init__`. -/
noncomputable def positionStep (L : EmbeddingLayer)
    (batch_size seq_len past_length : ℕ) (embeddings : Tensor) :
    Option Tensor :=
  match L.position_embeddings with
  | none => some embeddings
  | some pe =>
    if L.position_embedding_type = some "learned" then
      match pe with
      | .learned ptable =>
        let position_ids : IntTensor :=
          { shape := [batch_size, seq_len],
            data := (List.replicate batch_size
              ((List.range seq_len).map
                (fun (i : ℕ) => (past_length + i : ℤ)))).flatten }
        match embeddingLookup ptable position_ids with
        | none => none
        | some position_embeddings => inplaceAdd embeddings position_embeddings
      | .fixed _ => none
    else if L.position_embedding_type = some "fixed" then
      match pe with
      | .fixed table =>
        inplaceAdd embeddings
          { shape := [table.length, (table.headD []).length],
            data := table.flatten }
      | .learned _ => none
    else none

/-- The segment contribution of `forward` (source lines 209-211): added
only when both segment ids and a segment table are present (`.long()` is
an integer cast, the identity here). -/
noncomputable def segmentStep (L : EmbeddingLayer)
    (segment_ids : Option IntTensor) (embeddings : Tensor) : Option Tensor :=
  match segment_ids, L.segment_embeddings with
  | some sids, some stable =>
    match embeddingLookup stable sids with
    | none => none
    | some segment_embeddings => inplaceAdd embeddings segment_embeddings
  | _, _ => some embeddings

/-- `EmbeddingLayer.forward` (source lines 189-213). `batch_size` is the
ORIGINAL first dimension (`input_ids.shape[0]`), read before the
`view(-1, input_shape[-1])` flattening, whose first axis is instead the
product of all leading dimensions. `none` models a raised exception
(rank-0 input, out-of-range id, failed in-place broadcast add, or the
unreachable branches noted on `positionStep`). -/
noncomputable def forward (L : EmbeddingLayer) (input_ids : IntTensor)
    (segment_ids : Option IntTensor) (past_length : ℕ) : Option Tensor :=
  match input_ids.shape with
  | [] => none
  | batch_size :: _ =>
    let seq_len := input_ids.shape.getLastD 0
    let flat_ids : IntTensor :=
      { shape := [input_ids.shape.prod / seq_len, seq_len],
        data := input_ids.data }
    match embeddingLookup L.word_embeddings flat_ids with
    | none => none
    | some embeddings0 =>
      match positionStep L batch_size seq_len past_length embeddings0 with
      | none => none
      | some embeddings1 => segmentStep L segment_ids embeddings1

/-- Configuration for a learned-positions layer used with a rank-3 input:
1-token vocabulary, embedding size 1, zero-fill initializers. -/
noncomputable def cfgRank3 : Config :=
  { vocab_size := 1, embedding_size := 1, pad_token_id := none,
    segment_embedding_size := none,
    embeddings_initializer := fun _ _ => 0,
    max_position_embeddings := some 1, position_embedding_type := some "learned",
    min_timescale := 1, max_timescale := 10000,
    position_embeddings_initializer := fun _ _ => 0,
    num_segments := none, segment_embeddings_initializer := fun _ _ => 0 }

/-- The layer `cfgRank3` constructs. -/
noncomputable def layerRank3 : EmbeddingLayer :=
  { pad_token_id := none, position_embedding_type := some "learned",
    word_embeddings := ⟨1, 1, none, [[0]]⟩,
    position_embeddings := some (.learned ⟨1, 1, none, [[0]]⟩),
    segment_embeddings := none }

/-- A rank-3 ids tensor of shape `[2, 2, 1]` (all ids 0). -/
def idsRank3 : IntTensor := ⟨[2, 2, 1], [0, 0, 0, 0]⟩

/-- A fixed-positions layer literal used to witness past-length
independence. -/
noncomputable def layerFixedLit : EmbeddingLayer :=
  { pad_token_id := none, position_embedding_type := some "fixed",
    word_embeddings := ⟨1, 1, none, [[0]]⟩,
    position_embeddings := some (.fixed [[0]]),
    segment_embeddings := none }

/-- A rank-2 ids tensor of shape `[1, 1]`. -/
def idsRank2 : IntTensor := ⟨[1, 1], [0]⟩

-- ### Theorems ###

/-- Element `k < n` of `(List.range n).map f` with any default. -/
theorem getD_range_map {α : Type} (f : ℕ → α) (n k : ℕ) (h : k < n) (d : α) :
    ((List.range n).map f).getD k d = f k := by
  rw [List.getD_eq_getElem?_getD, List.getElem?_map, List.getElem?_range h]
  rfl

/-- Length of the flattening of `n` two-element rows. -/
theorem join_pairs_length (n : ℕ) (a b : ℕ → ℝ) :
    (((List.range n).map (fun k => [a k, b k])).flatten).length = 2 * n := by
  induction n with
  | zero => simp
  | succ m ih =>
      rw [List.range_succ]
      simp only [List.map_append, List.flatten_append, List.length_append, ih]
      simp
      omega

/-- Entries of the flattening of `n` two-element rows: position `2*i` holds
`a i` and position `2*i + 1` holds `b i`. -/
theorem join_pairs_getD (n : ℕ) (a b : ℕ → ℝ) (i : ℕ) (h : i < n) :
    ((((List.range n).map (fun k => [a k, b k])).flatten).getD (2 * i) 0 = a i) ∧
    ((((List.range n).map (fun k => [a k, b k])).flatten).getD (2 * i + 1) 0 = b i) := by
  induction n with
  | zero => omega
  | succ m ih =>
      rw [List.range_succ]
      simp only [List.map_append, List.flatten_append, List.map_cons, List.map_nil,
        List.flatten_cons, List.flatten_nil, List.append_nil]
      rcases Nat.lt_succ_iff_lt_or_eq.mp h with hlt | heq
      · have h1 : 2 * i < (((List.range m).map (fun k => [a k, b k])).flatten).length := by
          rw [join_pairs_length]; omega
        have h2 : 2 * i + 1 < (((List.range m).map (fun k => [a k, b k])).flatten).length := by
          rw [join_pairs_length]; omega
        rw [List.getD_append _ _ _ _ h1, List.getD_append _ _ _ _ h2]
        exact ih hlt
      · subst heq
        have hlen : (((List.range i).map (fun k => [a k, b k])).flatten).length = 2 * i :=
          join_pairs_length i a b
        have h1 : (((List.range i).map (fun k => [a k, b k])).flatten).length ≤ 2 * i := by omega
        have h2 : (((List.range i).map (fun k => [a k, b k])).flatten).length ≤ 2 * i + 1 := by
          omega
        rw [List.getD_append_right _ _ _ _ h1, List.getD_append_right _ _ _ _ h2, hlen]
        simp


/-- C1: for even `embed_len` with `num_timescales = embed_len / 2 ≥ 2`, any
`seq_len ≥ 1` and positive timescales, `create_fix_pos_embedding` returns a
`seq_len × embed_len` matrix whose row `p` holds, for each timescale index
`i < num_timescales`,
`sin(p * min_timescale * exp(-i * ln(max_timescale/min_timescale)/(num_timescales-1)))`
at column `2*i` and the cosine of the same argument at column `2*i + 1`:
columns alternate sin, cos per timescale rather than forming two
contiguous blocks. -/
theorem create_fix_pos_embedding_even_interleaved
    (seq_len embed_len : ℕ) (min_timescale max_timescale : ℚ)
    (heven : embed_len % 2 = 0) (hnt : 2 ≤ embed_len / 2) (hseq : 1 ≤ seq_len)
    (hmin : 0 < min_timescale) (hmax : 0 < max_timescale) :
    ∃ M : List (List ℝ),
      create_fix_pos_embedding seq_len embed_len min_timescale max_timescale = some M ∧
      M.length = seq_len ∧
      (∀ p, p < seq_len → (M.getD p []).length = embed_len) ∧
      (∀ p, p < seq_len → ∀ i, i < embed_len / 2 →
        (M.getD p []).getD (2 * i) 0 =
          Real.sin ((p : ℝ) * ((min_timescale : ℝ) *
            Real.exp (-(i : ℝ) * (Real.log ((max_timescale : ℝ) / (min_timescale : ℝ)) /
              (((embed_len / 2 : ℕ) : ℝ) - 1))))) ∧
        (M.getD p []).getD (2 * i + 1) 0 =
          Real.cos ((p : ℝ) * ((min_timescale : ℝ) *
            Real.exp (-(i : ℝ) * (Real.log ((max_timescale : ℝ) / (min_timescale : ℝ)) /
              (((embed_len / 2 : ℕ) : ℝ) - 1)))))) := by
  have hmin0 : min_timescale ≠ 0 := ne_of_gt hmin
  have hq : ¬ (max_timescale / min_timescale ≤ 0) := not_le.mpr (div_pos hmax hmin)
  have hc : ¬ (((embed_len / 2 : ℕ) : ℚ) - 1 = 0) := by
    have h1 : embed_len / 2 ≠ 1 := by omega
    rw [sub_eq_zero]
    exact_mod_cast h1
  have hr2 : List.range 2 = [0, 1] := by decide
  have hlen2 : 2 * (embed_len / 2) = embed_len := by omega
  simp only [create_fix_pos_embedding, if_neg hmin0, if_neg hq, if_neg hc, heven,
    List.replicate_zero, List.append_nil, List.map_map]
  refine ⟨_, rfl, ?_, ?_, ?_⟩
  · rw [List.length_map, List.length_range]
  · intro p hp
    rw [getD_range_map _ _ _ hp]
    simp only [Function.comp, hr2, List.map_cons, List.map_nil]
    rw [join_pairs_length]
    exact hlen2
  · intro p hp i hi
    rw [getD_range_map _ _ _ hp]
    simp only [Function.comp, hr2, List.map_cons, List.map_nil]
    rw [(join_pairs_getD (embed_len / 2) _ _ i hi).1,
      (join_pairs_getD (embed_len / 2) _ _ i hi).2]
    constructor
    · rw [List.getD_cons_zero, getD_range_map _ _ _ hi]
      simp only [Nat.zero_mul, Nat.zero_add, List.map_map]
      rw [List.getD_append _ _ _ _ (by simp [hi]), getD_range_map _ _ _ hi]
      simp only [Function.comp_apply]
      congr 1
      ring_nf
    · rw [List.getD_cons_succ, List.getD_cons_zero, getD_range_map _ _ _ hi]
      simp only [Nat.one_mul]
      rw [List.getD_append_right _ _ _ _ (by simp)]
      simp only [List.length_map, List.length_range, Nat.add_sub_cancel_left]
      rw [List.map_map, getD_range_map _ _ _ hi]
      simp only [Function.comp_apply]
      congr 1
      ring_nf

/-- Witness for C1 at `seq_len = 1`, `embed_len = 4`, `min_timescale = 1`,
`max_timescale = 10000`. -/
theorem create_fix_pos_embedding_even_interleaved_witness :
    ∃ M : List (List ℝ),
      create_fix_pos_embedding 1 4 1 10000 = some M ∧
      M.length = 1 ∧
      (∀ p, p < 1 → (M.getD p []).length = 4) ∧
      (∀ p, p < 1 → ∀ i, i < 4 / 2 →
        (M.getD p []).getD (2 * i) 0 =
          Real.sin ((p : ℝ) * (((1 : ℚ) : ℝ) *
            Real.exp (-(i : ℝ) * (Real.log (((10000 : ℚ) : ℝ) / ((1 : ℚ) : ℝ)) /
              (((4 / 2 : ℕ) : ℝ) - 1))))) ∧
        (M.getD p []).getD (2 * i + 1) 0 =
          Real.cos ((p : ℝ) * (((1 : ℚ) : ℝ) *
            Real.exp (-(i : ℝ) * (Real.log (((10000 : ℚ) : ℝ) / ((1 : ℚ) : ℝ)) /
              (((4 / 2 : ℕ) : ℝ) - 1)))))) :=
  create_fix_pos_embedding_even_interleaved 1 4 1 10000 (by decide) (by decide)
    (by decide) (by decide) (by decide)

/-- C7: for `embed_len` in {2, 3} (so `num_timescales = 1`) and any
`seq_len ≥ 1` and positive timescales, `create_fix_pos_embedding` raises:
`log_timescale_increment` divides by `float(num_timescales) - 1 = 0`
(`none` models the `ZeroDivisionError`). -/
theorem create_fix_pos_embedding_single_timescale_raises
    (seq_len embed_len : ℕ) (min_timescale max_timescale : ℚ)
    (hseq : 1 ≤ seq_len) (hmin : 0 < min_timescale) (hmax : 0 < max_timescale)
    (hembed : embed_len = 2 ∨ embed_len = 3) :
    create_fix_pos_embedding seq_len embed_len min_timescale max_timescale = none := by
  have hmin0 : min_timescale ≠ 0 := ne_of_gt hmin
  have hq : ¬ (max_timescale / min_timescale ≤ 0) := not_le.mpr (div_pos hmax hmin)
  have hnt : embed_len / 2 = 1 := by rcases hembed with h | h <;> simp [h]
  simp only [create_fix_pos_embedding, hnt, if_neg hmin0, if_neg hq]
  norm_num

/-- Witness for C7 at `seq_len = 1`, `embed_len = 2`. -/
theorem create_fix_pos_embedding_single_timescale_raises_witness :
    create_fix_pos_embedding 1 2 1 10000 = none :=
  create_fix_pos_embedding_single_timescale_raises 1 2 1 10000 (by decide) (by decide)
    (by decide) (Or.inl rfl)

/-- C2 (divergence witness): at `seq_len = 1`, `embed_len = 5`,
`create_fix_pos_embedding` returns a 2-row matrix of width 4 whose extra
LAST ROW is zero — `F.pad(signal, (0, 0, 0, 1))` pads axis 0 — instead of
the claimed `[1, 5]` matrix with an extra zero column. -/
theorem create_fix_pos_embedding_odd_pads_row_not_column :
    ((create_fix_pos_embedding 1 5 1 10000).getD []).length = 2 ∧
    ((create_fix_pos_embedding 1 5 1 10000).getD []).map List.length = [4, 4] ∧
    ((create_fix_pos_embedding 1 5 1 10000).getD []).getD 1 [] = [0, 0, 0, 0] ∧
    create_fix_pos_embedding 1 5 1 10000 ≠ none := by
  have h5 : (5 : ℕ) / 2 = 2 := by decide
  simp only [create_fix_pos_embedding, h5]
  norm_num [List.range_succ, List.replicate]
  exact Option.some_ne_none _


/-- The only exceptions `_reset_parameters` itself raises are the two
`AttributeError` cases. -/
theorem reset_parameters_error_cases (cfg : Config) (word : Embedding)
    (pos : Option PosEmb) (seg : Option Embedding) (e : InitError)
    (h : reset_parameters cfg word pos seg = .error e) :
    e = InitError.positionTableMismatch ∨ e = InitError.noneSegmentTable := by
  rcases pos with _ | (e1 | t1) <;>
    rcases seg with _ | se <;>
      by_cases hl : cfg.position_embedding_type = some "learned" <;>
        by_cases hp : truthy cfg.pad_token_id = true <;>
          simp_all [reset_parameters]

/-- With truthy `pad_token_id` and no segment table, `_reset_parameters`
always raises. -/
theorem reset_parameters_no_segment_fails (cfg : Config) (word : Embedding)
    (pos : Option PosEmb) (hpad : truthy cfg.pad_token_id = true) :
    exceptIsOk (reset_parameters cfg word pos none) = false := by
  rcases pos with _ | (e1 | t1) <;>
    by_cases hl : cfg.position_embedding_type = some "learned" <;>
      simp_all [reset_parameters, exceptIsOk]

/-- Every `buildPosition` error reports the word table as already built and
is one of the three construction-time exceptions. -/
theorem buildPosition_error_built (cfg : Config) (e : InitError) (b : Built)
    (h : buildPosition cfg = .error (e, b)) :
    b = ⟨true, false, false⟩ ∧
      (e = InitError.missingMaxPosition ∨ e = InitError.fixEmbeddingError ∨
        e = InitError.unknownPositionType) := by
  cases htype : cfg.position_embedding_type with
  | none => simp_all [buildPosition]
  | some t =>
    cases hmax : cfg.max_position_embeddings with
    | none => simp_all [buildPosition]
    | some m =>
      by_cases h1 : t = "learned"
      · simp_all [buildPosition]
      · by_cases h2 : t = "fixed"
        · cases hcr : create_fix_pos_embedding m cfg.embedding_size
              cfg.min_timescale cfg.max_timescale with
          | none => simp_all [buildPosition]
          | some table => simp_all [buildPosition]
        · by_cases h3 : t = "rotary" <;> simp_all [buildPosition]

/-- An `initLayer` error is the padding assert, a `buildPosition` error, or
one of the `_reset_parameters` exceptions. -/
theorem initLayer_error_cases (cfg : Config) (e : InitError) (b : Built)
    (h : initLayer cfg = .error (e, b)) :
    (e = InitError.badPaddingIdx ∧ b = ⟨false, false, false⟩) ∨
    buildPosition cfg = .error (e, b) ∨
    e = InitError.positionTableMismatch ∨ e = InitError.noneSegmentTable := by
  unfold initLayer at h
  by_cases hp : padIdxOk cfg.pad_token_id cfg.vocab_size = true
  · rw [if_pos hp] at h
    cases hbp : buildPosition cfg with
    | error eb =>
      simp only [hbp] at h
      injection h with h2
      subst h2
      exact Or.inr (Or.inl rfl)
    | ok pos =>
      simp only [hbp] at h
      cases hres : reset_parameters cfg
          (nnEmbedding cfg.vocab_size cfg.embedding_size cfg.pad_token_id) pos
          (buildSegment cfg) with
      | error er =>
        simp only [hres] at h
        injection h with h2
        have her : er = e := congrArg Prod.fst h2
        subst her
        exact Or.inr (Or.inr (reset_parameters_error_cases _ _ _ _ _ hres))
      | ok r =>
        obtain ⟨w, p, s⟩ := r
        simp only [hres] at h
        exact absurd h (by simp)
  · rw [if_neg hp] at h
    injection h with h2
    exact Or.inl ⟨(congrArg Prod.fst h2).symm, (congrArg Prod.snd h2).symm⟩

/-- A successful construction decomposes into a successful position build
and a successful `_reset_parameters` run on the three freshly built
tables. -/
theorem initLayer_ok_structure (cfg : Config) (L : EmbeddingLayer)
    (hok : initLayer cfg = Except.ok L) :
    ∃ pos w p s,
      buildPosition cfg = .ok pos ∧
      reset_parameters cfg
          (nnEmbedding cfg.vocab_size cfg.embedding_size cfg.pad_token_id) pos
          (buildSegment cfg) = .ok (w, p, s) ∧
      L = ⟨cfg.pad_token_id, cfg.position_embedding_type, w, p, s⟩ := by
  unfold initLayer at hok
  by_cases hp : padIdxOk cfg.pad_token_id cfg.vocab_size = true
  · rw [if_pos hp] at hok
    cases hbp : buildPosition cfg with
    | error eb => simp only [hbp] at hok; exact absurd hok (by simp)
    | ok pos =>
      simp only [hbp] at hok
      cases hres : reset_parameters cfg
          (nnEmbedding cfg.vocab_size cfg.embedding_size cfg.pad_token_id) pos
          (buildSegment cfg) with
      | error er => simp only [hres] at hok; exact absurd hok (by simp)
      | ok r =>
        obtain ⟨w, p, s⟩ := r
        simp only [hres] at hok
        injection hok with h2
        exact ⟨pos, w, p, s, rfl, hres, h2.symm⟩
  · rw [if_neg hp] at hok
    exact absurd hok (by simp)

/-- With `position_embedding_type = None`, no positional source is built. -/
theorem buildPosition_none_type (cfg : Config)
    (htype : cfg.position_embedding_type = none) :
    buildPosition cfg = .ok none := by
  simp [buildPosition, htype]

/-- With `"rotary"`, a successful position build yields no table. -/
theorem buildPosition_rotary (cfg : Config)
    (htype : cfg.position_embedding_type = some "rotary") (pos : Option PosEmb)
    (h : buildPosition cfg = .ok pos) : pos = none := by
  unfold buildPosition at h
  rw [htype] at h
  cases hmax : cfg.max_position_embeddings <;> simp_all

/-- With `"learned"`, a successful position build yields the fresh learned
table of shape `[max_position_embeddings, embedding_size]` with no
`padding_idx`. -/
theorem buildPosition_learned (cfg : Config)
    (htype : cfg.position_embedding_type = some "learned") (pos : Option PosEmb)
    (h : buildPosition cfg = .ok pos) :
    ∃ mp, cfg.max_position_embeddings = some mp ∧
      pos = some (.learned (nnEmbedding mp cfg.embedding_size none)) := by
  unfold buildPosition at h
  rw [htype] at h
  cases hmax : cfg.max_position_embeddings with
  | none => simp_all
  | some mp => rw [hmax] at h; simp at h; exact ⟨mp, rfl, h.symm⟩

/-- With `"fixed"`, a successful position build yields the constant matrix
`create_fix_pos_embedding` returned. -/
theorem buildPosition_fixed (cfg : Config)
    (htype : cfg.position_embedding_type = some "fixed") (pos : Option PosEmb)
    (h : buildPosition cfg = .ok pos) :
    ∃ mp table, cfg.max_position_embeddings = some mp ∧
      create_fix_pos_embedding mp cfg.embedding_size cfg.min_timescale
        cfg.max_timescale = some table ∧
      pos = some (.fixed table) := by
  unfold buildPosition at h
  rw [htype] at h
  cases hmax : cfg.max_position_embeddings with
  | none => simp_all
  | some mp =>
    rw [hmax] at h
    simp only [reduceIte] at h
    cases hcr : create_fix_pos_embedding mp cfg.embedding_size cfg.min_timescale
        cfg.max_timescale with
    | none => simp_all
    | some table =>
      rw [hcr] at h
      simp at h
      exact ⟨mp, table, rfl, hcr, h.symm⟩

/-- A successful construction only arises from a recognized position
type. -/
theorem initLayer_ok_type (cfg : Config) (L : EmbeddingLayer)
    (hok : initLayer cfg = Except.ok L) :
    cfg.position_embedding_type = none ∨
    cfg.position_embedding_type = some "learned" ∨
    cfg.position_embedding_type = some "fixed" ∨
    cfg.position_embedding_type = some "rotary" := by
  obtain ⟨pos, w, p, s, hbp, -, -⟩ := initLayer_ok_structure cfg L hok
  cases htype : cfg.position_embedding_type with
  | none => exact Or.inl rfl
  | some t =>
    by_cases h1 : t = "learned"
    · exact Or.inr (Or.inl (by rw [h1]))
    · by_cases h2 : t = "fixed"
      · exact Or.inr (Or.inr (Or.inl (by rw [h2])))
      · by_cases h3 : t = "rotary"
        · exact Or.inr (Or.inr (Or.inr (by rw [h3])))
        · exfalso
          unfold buildPosition at hbp
          rw [htype] at hbp
          cases hmax : cfg.max_position_embeddings <;> simp_all

/-- Zeroing at `padding_idx = None` (`tensor[None]`) clears every entry. -/
theorem zeroAtPaddingIdx_none_all_zero (w : List (List ℝ)) :
    ∀ row ∈ zeroAtPaddingIdx none w, ∀ x ∈ row, x = 0 := by
  intro row hrow x hx
  rcases List.mem_map.mp hrow with ⟨r, -, hr⟩
  subst hr
  rcases List.mem_map.mp hx with ⟨y, -, hy⟩
  exact hy.symm

/-- A successful `_reset_parameters` run preserves the word table's shape
and `padding_idx`. -/
theorem reset_ok_word_shape (cfg : Config) (word : Embedding)
    (pos : Option PosEmb) (seg : Option Embedding) (w : Embedding)
    (p : Option PosEmb) (s : Option Embedding)
    (hres : reset_parameters cfg word pos seg = .ok (w, p, s)) :
    w.num_embeddings = word.num_embeddings ∧
      w.embedding_dim = word.embedding_dim ∧
      w.padding_idx = word.padding_idx := by
  rcases pos with _ | (e1 | t1) <;>
    rcases seg with _ | se <;>
      by_cases hl : cfg.position_embedding_type = some "learned" <;>
        by_cases hp : truthy cfg.pad_token_id = true <;>
          simp_all [reset_parameters] <;>
            (obtain ⟨rfl, rfl, rfl⟩ := hres; exact ⟨rfl, rfl, rfl⟩)

/-- `_reset_parameters` keeps an absent positional source absent. -/
theorem reset_ok_pos_none (cfg : Config) (word : Embedding)
    (seg : Option Embedding) (w : Embedding) (p : Option PosEmb)
    (s : Option Embedding)
    (hres : reset_parameters cfg word none seg = .ok (w, p, s)) : p = none := by
  rcases seg with _ | se <;>
    by_cases hl : cfg.position_embedding_type = some "learned" <;>
      by_cases hp : truthy cfg.pad_token_id = true <;>
        simp_all [reset_parameters]

/-- `_reset_parameters` maps a learned positional table to a learned
positional table of the same shape and `padding_idx`. -/
theorem reset_ok_pos_learned (cfg : Config) (word : Embedding) (e0 : Embedding)
    (seg : Option Embedding) (w : Embedding) (p : Option PosEmb)
    (s : Option Embedding)
    (hres : reset_parameters cfg word (some (.learned e0)) seg = .ok (w, p, s)) :
    ∃ e1, p = some (.learned e1) ∧ e1.num_embeddings = e0.num_embeddings ∧
      e1.embedding_dim = e0.embedding_dim ∧ e1.padding_idx = e0.padding_idx := by
  rcases seg with _ | se <;>
    by_cases hl : cfg.position_embedding_type = some "learned" <;>
      by_cases hp : truthy cfg.pad_token_id = true <;>
        simp_all [reset_parameters] <;>
          (obtain ⟨rfl, rfl, rfl⟩ := hres; exact ⟨_, rfl, rfl, rfl, rfl⟩)

/-- `_reset_parameters` leaves a fixed positional table untouched. -/
theorem reset_ok_pos_fixed (cfg : Config) (word : Embedding)
    (t : List (List ℝ)) (seg : Option Embedding) (w : Embedding)
    (p : Option PosEmb) (s : Option Embedding)
    (hres : reset_parameters cfg word (some (.fixed t)) seg = .ok (w, p, s)) :
    p = some (.fixed t) := by
  rcases seg with _ | se <;>
    by_cases hl : cfg.position_embedding_type = some "learned" <;>
      by_cases hp : truthy cfg.pad_token_id = true <;>
        simp_all [reset_parameters]

/-- `_reset_parameters` keeps an absent segment table absent. -/
theorem reset_ok_seg_none (cfg : Config) (word : Embedding)
    (pos : Option PosEmb) (w : Embedding) (p : Option PosEmb)
    (s : Option Embedding)
    (hres : reset_parameters cfg word pos none = .ok (w, p, s)) : s = none := by
  rcases pos with _ | (e1 | t1) <;>
    by_cases hl : cfg.position_embedding_type = some "learned" <;>
      by_cases hp : truthy cfg.pad_token_id = true <;>
        simp_all [reset_parameters]

/-- `_reset_parameters` maps a segment table to a segment table of the same
shape. -/
theorem reset_ok_seg_some (cfg : Config) (word : Embedding)
    (pos : Option PosEmb) (e0 : Embedding) (w : Embedding) (p : Option PosEmb)
    (s : Option Embedding)
    (hres : reset_parameters cfg word pos (some e0) = .ok (w, p, s)) :
    ∃ e1, s = some e1 ∧ e1.num_embeddings = e0.num_embeddings ∧
      e1.embedding_dim = e0.embedding_dim := by
  rcases pos with _ | (e1 | t1) <;>
    by_cases hl : cfg.position_embedding_type = some "learned" <;>
      by_cases hp : truthy cfg.pad_token_id = true <;>
        simp_all [reset_parameters] <;>
          (obtain ⟨rfl, rfl, rfl⟩ := hres; exact ⟨_, rfl, rfl, rfl⟩)

/-- With truthy `pad_token_id`, a learned positional table whose
`padding_idx` is `None` comes out of a successful `_reset_parameters` run
entirely zero. -/
theorem reset_parameters_ok_learned_zero (cfg : Config) (word : Embedding)
    (e0 : Embedding) (seg : Option Embedding) (w : Embedding) (p : Option PosEmb)
    (s : Option Embedding)
    (hres : reset_parameters cfg word (some (.learned e0)) seg = .ok (w, p, s))
    (htype : cfg.position_embedding_type = some "learned")
    (hpad : truthy cfg.pad_token_id = true) (hpidx : e0.padding_idx = none) :
    ∃ e1, p = some (.learned e1) ∧ ∀ row ∈ e1.weight, ∀ x ∈ row, x = 0 := by
  rcases seg with _ | se
  · have hfail := reset_parameters_no_segment_fails cfg word (some (.learned e0)) hpad
    rw [hres] at hfail
    simp [exceptIsOk] at hfail
  · simp only [reset_parameters, htype, hpad, hpidx, reduceIte] at hres
    injection hres with h2
    refine ⟨⟨e0.num_embeddings, e0.embedding_dim, none,
      zeroAtPaddingIdx none (applyInit cfg.position_embeddings_initializer
        e0.num_embeddings e0.embedding_dim)⟩, ?_, ?_⟩
    · have h3 := congrArg
        (fun x : Embedding × Option PosEmb × Option Embedding => x.2.1) h2
      simpa using h3.symm
    · intro row hr x hx
      exact zeroAtPaddingIdx_none_all_zero _ row hr x hx

/-- C3 (divergence witness): with `pad_token_id = 0` — a valid row index of
the vocabulary — and an all-ones initializer, construction succeeds but the
word row at index 0 is all ones, not zero: `if self.pad_token_id:` in
`_reset_parameters` is false for the id `0`, so the zeroing is skipped. -/
theorem pad_row_not_zeroed_for_pad_id_zero :
    cfgPadZero.pad_token_id = some 0 ∧
    (initLayer cfgPadZero).toOption.map
        (fun L => L.word_embeddings.weight.getD 0 []) = some [1, 1] ∧
    (1 : ℝ) ≠ 0 :=
  ⟨rfl, rfl, one_ne_zero⟩

/-- C4 (counterexample): `position_embedding_type = "rotary"` with
`max_position_embeddings` unset raises the missing-max `ValueError`
instead of succeeding: the source requires `max_position_embeddings` for
every non-`None` type, `"rotary"` included. -/
theorem rotary_without_max_position_raises :
    cfgRotaryNoMax.position_embedding_type = some "rotary" ∧
    cfgRotaryNoMax.max_position_embeddings = none ∧
    initLayer cfgRotaryNoMax =
      Except.error (InitError.missingMaxPosition, ⟨true, false, false⟩) :=
  ⟨rfl, rfl, rfl⟩

/-- C4 (amended): with a valid `pad_token_id` and `max_position_embeddings`
unset, construction raises the missing-max error iff
`position_embedding_type` is not `None` — so also for `"rotary"`. -/
theorem missing_max_position_error_iff (cfg : Config)
    (hmax : cfg.max_position_embeddings = none)
    (hpad : padIdxOk cfg.pad_token_id cfg.vocab_size = true) :
    (∃ b, initLayer cfg = Except.error (InitError.missingMaxPosition, b)) ↔
      cfg.position_embedding_type ≠ none := by
  constructor
  · rintro ⟨b, hb⟩ htype
    rcases initLayer_error_cases cfg _ _ hb with ⟨h1, -⟩ | h1 | h1 | h1
    · exact absurd h1 (by simp)
    · rw [buildPosition_none_type cfg htype] at h1
      exact absurd h1 (by simp)
    · exact absurd h1 (by simp)
    · exact absurd h1 (by simp)
  · intro htype
    obtain ⟨t, ht⟩ := Option.ne_none_iff_exists'.mp htype
    refine ⟨⟨true, false, false⟩, ?_⟩
    have hbp : buildPosition cfg =
        .error (.missingMaxPosition, ⟨true, false, false⟩) := by
      unfold buildPosition
      rw [ht, hmax]
    unfold initLayer
    rw [if_pos hpad, hbp]

/-- Witness for C4 (amended) at the `"learned"`-without-max
configuration. -/
theorem missing_max_position_error_iff_witness :
    cfgLearnedNoMax.max_position_embeddings = none ∧
    padIdxOk cfgLearnedNoMax.pad_token_id cfgLearnedNoMax.vocab_size = true ∧
    ((∃ b, initLayer cfgLearnedNoMax =
        Except.error (InitError.missingMaxPosition, b)) ↔
      cfgLearnedNoMax.position_embedding_type ≠ none) :=
  ⟨rfl, rfl, missing_max_position_error_iff cfgLearnedNoMax rfl rfl⟩

/-- C5 (counterexample): a `"learned"` configuration without
`max_position_embeddings` raises with the word table ALREADY built — the
source constructs `self.word_embeddings` before validating
`max_position_embeddings` — refuting "no table exists yet". -/
theorem missing_max_error_word_already_built :
    initLayer cfgLearnedNoMax =
      Except.error (InitError.missingMaxPosition, ⟨true, false, false⟩) ∧
    (Built.mk true false false).word = true :=
  ⟨rfl, rfl⟩

/-- C5 (amended): when construction fails with the missing-max or
unknown-type error, the word table has already been built, and no
positional or segment table exists yet. -/
theorem config_error_after_word_before_other_tables (cfg : Config)
    (e : InitError) (b : Built)
    (herr : initLayer cfg = Except.error (e, b))
    (hkind : e = InitError.missingMaxPosition ∨
      e = InitError.unknownPositionType) :
    b.word = true ∧ b.pos = false ∧ b.seg = false := by
  rcases initLayer_error_cases cfg _ _ herr with ⟨h1, -⟩ | h1 | h1 | h1
  · rcases hkind with h | h <;> simp_all
  · obtain ⟨hb, -⟩ := buildPosition_error_built cfg _ _ h1
    rw [hb]
    exact ⟨rfl, rfl, rfl⟩
  · rcases hkind with h | h <;> simp_all
  · rcases hkind with h | h <;> simp_all

/-- Witness for C5 (amended) at the `"learned"`-without-max
configuration. -/
theorem config_error_after_word_before_other_tables_witness :
    initLayer cfgLearnedNoMax =
      Except.error (InitError.missingMaxPosition, ⟨true, false, false⟩) ∧
    ((Built.mk true false false).word = true ∧
     (Built.mk true false false).pos = false ∧
     (Built.mk true false false).seg = false) :=
  ⟨rfl, config_error_after_word_before_other_tables cfgLearnedNoMax
    InitError.missingMaxPosition ⟨true, false, false⟩ rfl (Or.inl rfl)⟩

/-- C9: with a truthy `pad_token_id` and `num_segments` unset construction
always raises: the nested `if self.pad_token_id:` in `_reset_parameters`
dereferences `self.segment_embeddings.weight` and that attribute is
`None`. -/
theorem truthy_pad_without_segments_raises (cfg : Config)
    (hpad : truthy cfg.pad_token_id = true)
    (hseg : cfg.num_segments = none) :
    exceptIsOk (initLayer cfg) = false := by
  cases hinit : initLayer cfg with
  | error e => rfl
  | ok L =>
    exfalso
    obtain ⟨pos, w, p, s, hbp, hres, -⟩ := initLayer_ok_structure cfg L hinit
    have hsegb : buildSegment cfg = none := by
      simp [buildSegment, hseg, truthy]
    rw [hsegb] at hres
    have hfail := reset_parameters_no_segment_fails cfg
      (nnEmbedding cfg.vocab_size cfg.embedding_size cfg.pad_token_id) pos hpad
    rw [hres] at hfail
    simp [exceptIsOk] at hfail

/-- Witness for C9 at a concrete configuration (`pad_token_id = 1`,
`num_segments = None`). -/
theorem truthy_pad_without_segments_raises_witness :
    truthy cfgPadNoSegments.pad_token_id = true ∧
    cfgPadNoSegments.num_segments = none ∧
    exceptIsOk (initLayer cfgPadNoSegments) = false :=
  ⟨rfl, rfl, truthy_pad_without_segments_raises cfgPadNoSegments rfl rfl⟩

/-- C8: when construction succeeds with a truthy (nonzero) `pad_token_id`
and `position_embedding_type = "learned"`, EVERY entry of the learned
positional table is zero: `_reset_parameters` indexes the positional
weight at its `padding_idx`, which is `None`, and `tensor[None]` is a view
of the whole table, so `zero_()` clears all of it, not a single row. -/
theorem learned_position_table_entirely_zero (cfg : Config)
    (L : EmbeddingLayer) (hok : initLayer cfg = Except.ok L)
    (hpad : truthy cfg.pad_token_id = true)
    (htype : cfg.position_embedding_type = some "learned") :
    ∃ e, L.position_embeddings = some (PosEmb.learned e) ∧
      ∀ row ∈ e.weight, ∀ x ∈ row, x = 0 := by
  obtain ⟨pos, w, p, s, hbp, hres, hL⟩ := initLayer_ok_structure cfg L hok
  obtain ⟨mp, hmax, hpos⟩ := buildPosition_learned cfg htype pos hbp
  subst hpos
  obtain ⟨e1, hp1, hzero⟩ :=
    reset_parameters_ok_learned_zero cfg _ _ _ _ _ _ hres htype hpad rfl
  subst hL
  exact ⟨e1, hp1, hzero⟩

/-- Witness for C8 at `cfgLearnedPad`: the constructed layer's learned
positional table is `[[0]]`. -/
theorem learned_position_table_entirely_zero_witness :
    initLayer cfgLearnedPad = Except.ok layerLearnedPad ∧
    truthy cfgLearnedPad.pad_token_id = true ∧
    cfgLearnedPad.position_embedding_type = some "learned" ∧
    (∃ e, layerLearnedPad.position_embeddings = some (PosEmb.learned e) ∧
      ∀ row ∈ e.weight, ∀ x ∈ row, x = 0) :=
  ⟨rfl, rfl, rfl, learned_position_table_entirely_zero cfgLearnedPad
    layerLearnedPad rfl rfl rfl⟩

/-- Shape of a successfully synthesized fixed positional table:
`seq_len + embed_len % 2` rows (the odd case appends a zero row), each of
width `2 * (embed_len / 2)`. -/
theorem create_fix_pos_embedding_shape (seq_len embed_len : ℕ)
    (min_timescale max_timescale : ℚ) (M : List (List ℝ))
    (h : create_fix_pos_embedding seq_len embed_len min_timescale
      max_timescale = some M) :
    M.length = seq_len + embed_len % 2 ∧
      ∀ row ∈ M, row.length = 2 * (embed_len / 2) := by
  have hr2 : List.range 2 = [0, 1] := by decide
  simp only [create_fix_pos_embedding] at h
  split at h
  · exact absurd h (by simp)
  · split at h
    · exact absurd h (by simp)
    · split at h
      · exact absurd h (by simp)
      · injection h with h2
        subst h2
        constructor
        · simp
        · intro row hrow
          rcases List.mem_append.mp hrow with hmem | hmem
          · simp only [List.map_map] at hmem
            rcases List.mem_map.mp hmem with ⟨pn, -, hrw⟩
            subst hrw
            simp only [Function.comp, hr2, List.map_cons, List.map_nil]
            exact join_pairs_length (embed_len / 2) _ _
          · rw [List.eq_of_mem_replicate hmem]
            simp

/-- A lookup with every id in range succeeds, appending `embedding_dim` to
the id shape. -/
theorem embeddingLookup_ok (e : Embedding) (ids : IntTensor)
    (h : ∀ i ∈ ids.data, 0 ≤ i ∧ i < (e.num_embeddings : ℤ)) :
    embeddingLookup e ids =
      some { shape := ids.shape ++ [e.embedding_dim],
             data := ids.data.flatMap (fun i => e.weight.getD i.toNat []) } := by
  unfold embeddingLookup
  rw [if_pos]
  exact List.all_eq_true.mpr (fun i hi => by
    obtain ⟨h1, h2⟩ := h i hi
    simp [h1, h2])

/-- Broadcasting a reversed shape against itself is the identity. -/
theorem broadcastShapeRev_self (xs : List ℕ) :
    broadcastShapeRev xs xs = some xs := by
  induction xs with
  | nil => rfl
  | cons x xs ih => simp [broadcastShapeRev, bdim, ih]

/-- Broadcasting a shape against itself is the identity. -/
theorem broadcastShape_self (xs : List ℕ) : broadcastShape xs xs = some xs := by
  simp [broadcastShape, broadcastShapeRev_self]

/-- A reversed shape broadcast against a prefix of itself is the
identity. -/
theorem broadcastShapeRev_append_self (zs ws : List ℕ) :
    broadcastShapeRev (zs ++ ws) zs = some (zs ++ ws) := by
  induction zs with
  | nil => cases ws <;> rfl
  | cons z zs ih => simp [broadcastShapeRev, bdim, ih]

/-- A shape broadcast against its own tail is the identity: the missing
leading axis broadcasts. -/
theorem broadcastShape_cons_self (x : ℕ) (ys : List ℕ) :
    broadcastShape (x :: ys) ys = some (x :: ys) := by
  unfold broadcastShape
  rw [show (x :: ys).reverse = ys.reverse ++ [x] by simp,
    broadcastShapeRev_append_self]
  simp

/-- An in-place add of two same-shaped tensors succeeds and keeps the
shape. -/
theorem inplaceAdd_same_shape (a bT : Tensor) (h : bT.shape = a.shape) :
    ∃ out, inplaceAdd a bT = some out ∧ out.shape = a.shape := by
  unfold inplaceAdd
  rw [h, if_pos (broadcastShape_self a.shape)]
  exact ⟨_, rfl, rfl⟩

/-- An in-place add whose right operand misses only the leading axis
broadcasts and keeps the left shape. -/
theorem inplaceAdd_missing_lead (a bT : Tensor) (x : ℕ)
    (h : a.shape = x :: bT.shape) :
    ∃ out, inplaceAdd a bT = some out ∧ out.shape = a.shape := by
  unfold inplaceAdd
  rw [h, if_pos (broadcastShape_cons_self x bT.shape)]
  exact ⟨_, rfl, rfl⟩

/-- Every expanded position id `past_length + i`, `i < seq_len`, is in
range for a table of at least `past_length + seq_len` rows. -/
theorem position_ids_in_range (b s past mp : ℕ) (h : past + s ≤ mp) :
    ∀ i ∈ (List.replicate b ((List.range s).map
        (fun (i : ℕ) => (past + i : ℤ)))).flatten,
      0 ≤ i ∧ i < (mp : ℤ) := by
  intro i hi
  rcases List.mem_flatten.mp hi with ⟨l, hl, hil⟩
  obtain ⟨-, hleq⟩ := List.mem_replicate.mp hl
  subst hleq
  rcases List.mem_map.mp hil with ⟨k, hk, hki⟩
  subst hki
  have hks := List.mem_range.mp hk
  constructor
  · positivity
  · omega

/-- `positionStep` keeps the `[batch, seq, emb]` shape whenever the
positional source is absent, is a learned table wide enough for the offset
range, or is a fixed table of shape exactly `[seq, emb]`. -/
theorem positionStep_shape (L : EmbeddingLayer) (b s e past : ℕ)
    (hs : 1 ≤ s) (emb0 : Tensor) (hsh : emb0.shape = [b, s, e])
    (hpos : L.position_embeddings = none ∨
      (∃ pe, L.position_embedding_type = some "learned" ∧
        L.position_embeddings = some (.learned pe) ∧ pe.embedding_dim = e ∧
        past + s ≤ pe.num_embeddings) ∨
      (∃ t, L.position_embedding_type = some "fixed" ∧
        L.position_embeddings = some (.fixed t) ∧ t.length = s ∧
        ∀ row ∈ t, row.length = e)) :
    ∃ out, positionStep L b s past emb0 = some out ∧
      out.shape = [b, s, e] := by
  rcases hpos with hN | ⟨pe, ht, hpe, hdim, hrange⟩ | ⟨t, ht, hpe, hlen, hwidth⟩
  · exact ⟨emb0, by simp [positionStep, hN], hsh⟩
  · have hlook := embeddingLookup_ok pe
      ⟨[b, s], (List.replicate b ((List.range s).map
        (fun (i : ℕ) => (past + i : ℤ)))).flatten⟩
      (position_ids_in_range b s past pe.num_embeddings hrange)
    obtain ⟨out, hadd, hosh⟩ := inplaceAdd_same_shape emb0
      ⟨[b, s] ++ [pe.embedding_dim],
        ((List.replicate b ((List.range s).map
          (fun (i : ℕ) => (past + i : ℤ)))).flatten).flatMap
          (fun i => pe.weight.getD i.toNat [])⟩
      (by simp [hsh, hdim])
    refine ⟨out, ?_, by rw [hosh, hsh]⟩
    simp only [positionStep, hpe, ht, reduceIte]
    rw [hlook]
    exact hadd
  · have ht0 : t ≠ [] := by
      intro h0
      rw [h0] at hlen
      simp at hlen
      omega
    obtain ⟨r, rest, hrt⟩ := List.exists_cons_of_ne_nil ht0
    have hhead : (t.headD []).length = e := by
      rw [hrt]
      exact hwidth r (by rw [hrt]; simp)
    obtain ⟨out, hadd, hosh⟩ := inplaceAdd_missing_lead emb0
      ⟨[t.length, (t.headD []).length], t.flatten⟩ b
      (by rw [hsh, hlen, hhead])
    refine ⟨out, ?_, by rw [hosh, hsh]⟩
    simp only [positionStep, hpe, ht, reduceIte]
    exact hadd

/-- `segmentStep` keeps the `[batch, seq, emb]` shape whenever segment ids
are absent, the segment table is absent, or the ids are `[batch, seq]`,
in range, and the table width matches. -/
theorem segmentStep_shape (L : EmbeddingLayer) (b s e : ℕ)
    (segment_ids : Option IntTensor) (emb1 : Tensor)
    (hsh : emb1.shape = [b, s, e])
    (hseg : segment_ids = none ∨ L.segment_embeddings = none ∨
      (∃ sids st, segment_ids = some sids ∧ L.segment_embeddings = some st ∧
        sids.shape = [b, s] ∧ st.embedding_dim = e ∧
        ∀ i ∈ sids.data, 0 ≤ i ∧ i < (st.num_embeddings : ℤ))) :
    ∃ out, segmentStep L segment_ids emb1 = some out ∧
      out.shape = [b, s, e] := by
  rcases hseg with hN | hN | ⟨sids, st, hsid, hst, hsshape, hstdim, hsrange⟩
  · exact ⟨emb1, by simp [segmentStep, hN], hsh⟩
  · cases segment_ids with
    | none => exact ⟨emb1, by simp [segmentStep], hsh⟩
    | some sids => exact ⟨emb1, by simp [segmentStep, hN], hsh⟩
  · have hlook := embeddingLookup_ok st sids hsrange
    obtain ⟨out, hadd, hosh⟩ := inplaceAdd_same_shape emb1
      ⟨sids.shape ++ [st.embedding_dim],
        sids.data.flatMap (fun i => st.weight.getD i.toNat [])⟩
      (by simp [hsh, hsshape, hstdim])
    refine ⟨out, ?_, by rw [hosh, hsh]⟩
    simp only [segmentStep, hsid, hst]
    rw [hlook]
    exact hadd

/-- C10: with positional mode "fixed", "rotary", or none, `forward` does
not depend on `past_length`: the offset is read only inside the "learned"
branch. -/
theorem forward_independent_of_past_length (L : EmbeddingLayer)
    (input_ids : IntTensor) (segment_ids : Option IntTensor) (p1 p2 : ℕ)
    (htype : L.position_embedding_type = some "fixed" ∨
      L.position_embedding_type = some "rotary" ∨
      L.position_embedding_type = none) :
    forward L input_ids segment_ids p1 = forward L input_ids segment_ids p2 := by
  have hne : ¬ (L.position_embedding_type = some "learned") := by
    rcases htype with h | h | h <;> simp [h]
  have hstep : ∀ bs sl emb0, positionStep L bs sl p1 emb0 =
      positionStep L bs sl p2 emb0 := by
    intro bs sl emb0
    unfold positionStep
    cases L.position_embeddings with
    | none => rfl
    | some pe => simp only [if_neg hne]
  unfold forward
  simp only [hstep]

/-- Witness for C10 at a concrete fixed-positions layer: `past_length = 0`
and `past_length = 7` give the same output. -/
theorem forward_independent_of_past_length_witness :
    layerFixedLit.position_embedding_type = some "fixed" ∧
    forward layerFixedLit idsRank2 none 0 =
      forward layerFixedLit idsRank2 none 7 :=
  ⟨rfl, forward_independent_of_past_length layerFixedLit idsRank2 none 0 7
    (Or.inl rfl)⟩

/-- C6 (counterexample): a validly constructed learned-positions layer fed
a rank-3 `[2, 2, 1]` ids tensor raises instead of returning a
`[flattened_batch, seq_len, embedding_size]` tensor: the position ids
expand over `input_ids.shape[0] = 2` rows while the word embeddings were
flattened to 4 rows, so the in-place add cannot broadcast `[2, 1, 1]`
into `[4, 1, 1]`. -/
theorem forward_rank3_learned_raises :
    initLayer cfgRank3 = Except.ok layerRank3 ∧
    idsRank3.shape = [2, 2, 1] ∧
    forward layerRank3 idsRank3 none 0 = none :=
  ⟨rfl, rfl, rfl⟩

/-- C6 (amended): for a successfully constructed layer and a rank-2 ids
tensor `[batch, seq]` with in-range token ids — requiring additionally
`past_length + seq ≤ max_position_embeddings` in "learned" mode,
`max_position_embeddings = seq` and an even `embedding_size` in "fixed"
mode, and, when segment ids are supplied while a segment table exists,
segment ids of shape `[batch, seq]` in range with the segment width equal
to `embedding_size` — `forward` returns a tensor of shape
`[batch, seq, embedding_size]`: the flattened batch equals `batch` and the
output is not reshaped further. Inputs of other ranks can fail (see the
rank-3 counterexample). -/
theorem forward_shape_rank2 (cfg : Config) (L : EmbeddingLayer)
    (hok : initLayer cfg = Except.ok L) (b s past : ℕ)
    (hb : 1 ≤ b) (hs : 1 ≤ s) (ids : IntTensor) (hidshape : ids.shape = [b, s])
    (hids : ∀ i ∈ ids.data, 0 ≤ i ∧ i < (cfg.vocab_size : ℤ))
    (segment_ids : Option IntTensor)
    (hlearn : ∀ mp, cfg.position_embedding_type = some "learned" →
      cfg.max_position_embeddings = some mp → past + s ≤ mp)
    (hfix : cfg.position_embedding_type = some "fixed" →
      cfg.max_position_embeddings = some s ∧ cfg.embedding_size % 2 = 0)
    (hsegids : ∀ sids, segment_ids = some sids →
      truthy cfg.num_segments = true →
      sids.shape = [b, s] ∧
      cfg.segment_embedding_size.getD cfg.embedding_size =
        cfg.embedding_size ∧
      ∀ i ∈ sids.data, 0 ≤ i ∧ i < ((cfg.num_segments.getD 0) : ℤ)) :
    ∃ out, forward L ids segment_ids past = some out ∧
      out.shape = [b, s, cfg.embedding_size] := by
  obtain ⟨pos, w, p, sg, hbp, hres, hL⟩ := initLayer_ok_structure cfg L hok
  obtain ⟨hwn, hwd, -⟩ := reset_ok_word_shape _ _ _ _ _ _ _ hres
  have hLw : L.word_embeddings = w := by rw [hL]
  have hLp : L.position_embeddings = p := by rw [hL]
  have hLs : L.segment_embeddings = sg := by rw [hL]
  have hLt : L.position_embedding_type = cfg.position_embedding_type := by
    rw [hL]
  have hpos : L.position_embeddings = none ∨
      (∃ pe, L.position_embedding_type = some "learned" ∧
        L.position_embeddings = some (.learned pe) ∧
        pe.embedding_dim = cfg.embedding_size ∧
        past + s ≤ pe.num_embeddings) ∨
      (∃ t, L.position_embedding_type = some "fixed" ∧
        L.position_embeddings = some (.fixed t) ∧ t.length = s ∧
        ∀ row ∈ t, row.length = cfg.embedding_size) := by
    rcases initLayer_ok_type cfg L hok with h0 | h0 | h0 | h0
    · have hposn : pos = none := by
        have hbn := buildPosition_none_type cfg h0
        rw [hbn] at hbp
        injection hbp with h1
        exact h1.symm
      subst hposn
      have hpn := reset_ok_pos_none cfg _ _ _ _ _ hres
      exact Or.inl (by rw [hLp, hpn])
    · obtain ⟨mp, hmax, hposl⟩ := buildPosition_learned cfg h0 pos hbp
      subst hposl
      obtain ⟨e1, hp1, hnum, hdim, hpidx⟩ :=
        reset_ok_pos_learned cfg _ _ _ _ _ _ hres
      right; left
      refine ⟨e1, by rw [hLt, h0], by rw [hLp, hp1], by rw [hdim]; rfl, ?_⟩
      rw [hnum]
      exact hlearn mp h0 hmax
    · obtain ⟨mp, t, hmax, hcr, hposf⟩ := buildPosition_fixed cfg h0 pos hbp
      subst hposf
      have hpfix := reset_ok_pos_fixed cfg _ _ _ _ _ _ hres
      obtain ⟨hmax_s, heven⟩ := hfix h0
      have hmp : mp = s := by
        rw [hmax] at hmax_s
        injection hmax_s
      subst hmp
      obtain ⟨hlen, hwidth⟩ := create_fix_pos_embedding_shape _ _ _ _ _ hcr
      right; right
      refine ⟨t, by rw [hLt, h0], by rw [hLp, hpfix], ?_, ?_⟩
      · rw [hlen, heven]
        omega
      · intro row hr
        rw [hwidth row hr]
        omega
    · have hposn : pos = none := buildPosition_rotary cfg h0 pos hbp
      subst hposn
      have hpn := reset_ok_pos_none cfg _ _ _ _ _ hres
      exact Or.inl (by rw [hLp, hpn])
  have hseg2 : segment_ids = none ∨ L.segment_embeddings = none ∨
      (∃ sids st, segment_ids = some sids ∧
        L.segment_embeddings = some st ∧ sids.shape = [b, s] ∧
        st.embedding_dim = cfg.embedding_size ∧
        ∀ i ∈ sids.data, 0 ≤ i ∧ i < (st.num_embeddings : ℤ)) := by
    cases segment_ids with
    | none => exact Or.inl rfl
    | some sids =>
      cases hts : truthy cfg.num_segments with
      | false =>
        have hbs : buildSegment cfg = none := by simp [buildSegment, hts]
        rw [hbs] at hres
        have hsn := reset_ok_seg_none cfg _ _ _ _ _ hres
        exact Or.inr (Or.inl (by rw [hLs, hsn]))
      | true =>
        have hbs : buildSegment cfg =
            some (nnEmbedding (cfg.num_segments.getD 0)
              (cfg.segment_embedding_size.getD cfg.embedding_size) none) := by
          simp [buildSegment, hts]
        rw [hbs] at hres
        obtain ⟨e1, hs1, hnum, hdim⟩ := reset_ok_seg_some cfg _ _ _ _ _ _ hres
        obtain ⟨hshp, hw, hrange⟩ := hsegids sids rfl hts
        right; right
        refine ⟨sids, e1, rfl, by rw [hLs, hs1], hshp, ?_, ?_⟩
        · rw [hdim]
          exact hw
        · intro i hi
          obtain ⟨h1, h2⟩ := hrange i hi
          refine ⟨h1, ?_⟩
          rw [hnum]
          exact h2
  obtain ⟨sh, dat⟩ := ids
  dsimp only at hidshape hids
  subst hidshape
  have hflat : ∀ i ∈ dat, 0 ≤ i ∧
      i < (L.word_embeddings.num_embeddings : ℤ) := by
    rw [hLw, hwn]
    exact hids
  have hlookw := embeddingLookup_ok L.word_embeddings ⟨[b, s], dat⟩ hflat
  obtain ⟨out1, hps, hsh1⟩ := positionStep_shape L b s cfg.embedding_size past
    hs ⟨[b, s] ++ [L.word_embeddings.embedding_dim],
      dat.flatMap (fun i => L.word_embeddings.weight.getD i.toNat [])⟩
    (by simp [hLw, hwd, nnEmbedding]) hpos
  obtain ⟨out2, hss, hsh2⟩ := segmentStep_shape L b s cfg.embedding_size
    segment_ids out1 hsh1 hseg2
  refine ⟨out2, ?_, hsh2⟩
  simp only [forward]
  rw [show ([b, s] : List ℕ).getLastD 0 = s from rfl]
  rw [show ([b, s] : List ℕ).prod = b * s by simp]
  rw [Nat.div_eq_of_eq_mul_left (by omega : 0 < s) rfl]
  simp only [hlookw, hps, hss]

/-- Witness for C6 (amended) at `cfgLearnedPad` with a `[1, 1]` ids
tensor. -/
theorem forward_shape_rank2_witness :
    initLayer cfgLearnedPad = Except.ok layerLearnedPad ∧
    idsRank2.shape = [1, 1] ∧
    (∃ out, forward layerLearnedPad idsRank2 none 0 = some out ∧
      out.shape = [1, 1, cfgLearnedPad.embedding_size]) := by
  refine ⟨rfl, rfl, ?_⟩
  exact forward_shape_rank2 cfgLearnedPad layerLearnedPad rfl 1 1 0
    (le_refl 1) (le_refl 1) idsRank2 rfl (by decide) none
    (fun mp _ h2 => by injection h2 with h3; omega)
    (fun h => absurd (Option.some.inj h) (by decide))
    (fun sids h => nomatch h)

end ModelZoo
